import Mathlib

/-!
Verification development for the benchtool chart-generation scripts
(graphgen.py, visualize.py, visualize_extensive.py, tidesdb_rocksdb.py,
plot_tidesdb_rocksdb.py).

The scripts load a CSV of benchmark observations into a pandas DataFrame and
extract aggregated series for plotting.  This file gives a shallow embedding
of the data model (one Row per CSV record, a Table wrapping the rows together
with column-presence information) and of the aggregation/extraction logic of
the routines the claims refer to.  Floating-point NaN values of optional
numeric cells are modelled as Option values (none = NaN/missing), matching
the pandas behaviour that mean-aggregation skips NaN and that the mean of an
empty selection is NaN.  Division that can produce IEEE infinities or NaN is
modelled by the FVal type.  Group keys are collected with List.dedup; its
occurrence order differs from the first-seen order of pandas unique, but
every embedded consumer either sorts the resulting collection or is only
subject to order-independent statements, so this difference is immaterial.
-/

namespace Benchtool

/-- One benchmark observation (one CSV row).  The fields engine, operation and
test_name are the categorical identity columns; ops_per_sec, p99_us and
batch_size are the numeric measurement columns needed by the claims, with
none standing for a missing/NaN cell. -/
structure Row where
  engine : String
  operation : String
  test_name : String
  ops_per_sec : Option ℚ
  p99_us : Option ℚ
  batch_size : Option ℚ
  deriving Repr, DecidableEq

/-- A loaded DataFrame: its rows plus whether the optional column p99_us is
present in df.columns at all (pandas raises KeyError on access to an absent
column, which is distinct from a present column holding NaN values).  The
identity columns engine, operation and test_name are modelled as always
present. -/
structure Table where
  rows : List Row
  hasP99 : Bool
  deriving Repr, DecidableEq

/-- Mean of a float column selection under pandas semantics: NaN entries are
skipped, and the mean of a selection with no non-NaN entry is NaN (none). -/
def pmean (l : List (Option ℚ)) : Option ℚ :=
  let v := l.filterMap id
  if v.length = 0 then none else some (v.sum / (v.length : ℚ))

/-- Arithmetic mean of a list of rationals (none when the list is empty).
This is the specification-side notion of mean, stated directly on the values
rather than through the column machinery. -/
def arithMean (vs : List ℚ) : Option ℚ :=
  if vs.length = 0 then none else some (vs.sum / (vs.length : ℚ))

/-! Generic stable insertion sort with a boolean comparator, modelling the
sort steps of pandas sort_values and numpy argsort as used by the scripts. -/

/-- Insert an element into a list in front of the first element it compares
no greater than. -/
def insertByB (le : α → α → Bool) (a : α) : List α → List α
  | [] => [a]
  | b :: bs => if le a b then a :: b :: bs else b :: insertByB le a bs

/-- Insertion sort with a boolean comparator. -/
def sortByB (le : α → α → Bool) (l : List α) : List α :=
  l.foldr (insertByB le) []

/-! String helpers modelling the pandas str accessor operations used by the
scripts: startswith, contains, and the regex digit-run extraction. -/

/-- Boolean test that the first list is a leading segment of the second. -/
def listPrefixOf : List Char → List Char → Bool
  | [], _ => true
  | _ :: _, [] => false
  | a :: as, b :: bs => a == b && listPrefixOf as bs

/-- Boolean test that the needle occurs contiguously inside the list. -/
def listContains (needle : List Char) : List Char → Bool
  | [] => needle.isEmpty
  | c :: rest => listPrefixOf needle (c :: rest) || listContains needle rest

/-- Model of pandas Series.str.contains with a literal pattern. -/
def strContainsSub (hay needle : String) : Bool :=
  listContains needle.toList hay.toList

/-- Model of pandas Series.str.startswith. -/
def strStartsWith (s pre : String) : Bool :=
  listPrefixOf pre.toList s.toList

/-- Take the maximal leading run of digit characters. -/
def takeDigits : List Char → List Char
  | [] => []
  | c :: cs => if c.isDigit then c :: takeDigits cs else []

/-- First contiguous run of digits anywhere in the list. -/
def firstDigitRun : List Char → List Char
  | [] => []
  | c :: cs => if c.isDigit then c :: takeDigits cs else firstDigitRun cs

/-- Decimal value of a digit-character list. -/
def digitsToNat (l : List Char) : Nat :=
  l.foldl (fun acc c => 10 * acc + (c.toNat - 48)) 0

/-- Model of the capture of a regex matching the first digit run, as in the
extraction done by plot_threads in visualize_extensive.py. -/
def firstNatIn (s : String) : Nat :=
  digitsToNat (firstDigitRun s.toList)

/-- Model of the capture of the digits following the six-character literal
tag at the front of a batch test name, as extracted by plot_batch_size_impact
in visualize.py from names already filtered to start with that tag. -/
def batchNum (s : String) : Nat :=
  digitsToNat (takeDigits (s.toList.drop 6))

/-! Group-by machinery shared by the aggregation call sites.  Pandas groupby
with a mean aggregation computes, for each distinct key of the grouped
column(s), the NaN-skipping mean of the metric over the rows carrying that
key. -/

/-- The (test_name, engine) grouping key used by graphgen plot_throughput and
visualize_extensive calc_stats. -/
def keyTE (r : Row) : String × String :=
  (r.test_name, r.engine)

/-- Rows of the frame whose key equals the given key value. -/
def cellRows [DecidableEq κ] (rows : List Row) (key : Row → κ) (k : κ) : List Row :=
  rows.filter (fun r => decide (key r = k))

/-- Model of df.groupby(key)[metric].mean(): one entry per distinct key,
holding the NaN-skipping mean of the metric over the matching rows. -/
def groupbyMean [DecidableEq κ] (rows : List Row) (key : Row → κ)
    (metric : Row → Option ℚ) : List (κ × Option ℚ) :=
  ((rows.map key).dedup).map
    (fun k => (k, pmean ((cellRows rows key k).map metric)))

/-- The present (non-NaN) metric values of exactly the rows matching a key:
the specification-side reading of one aggregation cell. -/
def matchingVals [DecidableEq κ] (rows : List Row) (key : Row → κ)
    (metric : Row → Option ℚ) (k : κ) : List ℚ :=
  (cellRows rows key k).filterMap metric

/-- Model of calc_stats in visualize_extensive.py (lines 40-43) restricted to
its mean aggregate: group by (test_name, engine) and average the metric.  The
std, count and ci95 aggregates are not needed by any claim and are omitted. -/
def calcStatsMean (rows : List Row) (metric : Row → Option ℚ) :
    List ((String × String) × Option ℚ) :=
  groupbyMean rows keyTE metric

/-! Model of IEEE-style division results as produced by pandas Series
division: a finite value, an infinity, or NaN.  The sign of the infinity is
not tracked because the metric columns involved are non-negative. -/

/-- Result of a float division: finite, infinite, or NaN. -/
inductive FVal where
  | num : ℚ → FVal
  | inf : FVal
  | nan : FVal
  deriving Repr, DecidableEq

/-- Division of two possibly-NaN cells under float semantics: NaN propagates,
a nonzero value divided by zero gives an infinity, zero by zero gives NaN. -/
def fdiv : Option ℚ → Option ℚ → FVal
  | some a, some b => if b = 0 then (if a = 0 then FVal.nan else FVal.inf) else FVal.num (a / b)
  | some _, none => FVal.nan
  | none, _ => FVal.nan

/-- Ascending comparison on float-division results as used by sort_values:
finite values by magnitude, infinities after all finite values.  NaN entries
are dropped before any sort in the embedded code, so their position here is
immaterial. -/
def fvalLE : FVal → FVal → Bool
  | FVal.num a, FVal.num b => decide (a ≤ b)
  | FVal.num _, FVal.inf => true
  | FVal.num _, FVal.nan => true
  | FVal.inf, FVal.num _ => false
  | FVal.inf, FVal.inf => true
  | FVal.inf, FVal.nan => true
  | FVal.nan, FVal.num _ => false
  | FVal.nan, FVal.inf => false
  | FVal.nan, FVal.nan => true

/-! Embeddings of the graphgen.py routines named by the claims. -/

/-- Model of the row-dropping step of generate_graphs in graphgen.py
(line 987): df.dropna keeps only rows with a parseable ops_per_sec value.
The dropna subset also names engine and operation, but those identity columns
are total strings in this model, so only the ops_per_sec component acts. -/
def graphgenLoad (rows : List Row) : List Row :=
  rows.filter (fun r => r.ops_per_sec.isSome)

/-- Ascending-by-x comparator for series points. -/
def qfstLE (p q : ℚ × Option ℚ) : Bool :=
  decide (p.1 ≤ q.1)

/-- Model of the per-engine series built by plot_param_sweep in graphgen.py
(lines 371-394): filter to the operation and engine, group by the sweep
parameter (groupby drops rows whose key is NaN), average ops_per_sec, and
sort ascending by the parameter value. -/
def paramSweepSeries (rows : List Row) (param : Row → Option ℚ)
    (opFilter engine : String) : List (ℚ × Option ℚ) :=
  let subset := rows.filter (fun r => decide (r.operation = opFilter))
  let eng := subset.filter (fun r => decide (r.engine = engine))
  let keys := (eng.filterMap param).dedup
  sortByB qfstLE (keys.map (fun k =>
    (k, pmean ((eng.filter (fun r => decide (param r = some k))).map
      (fun r => r.ops_per_sec)))))

/-- The fixed operation order used by the graphgen comparison charts. -/
def opsOrder : List String :=
  ["PUT", "GET", "DELETE", "SEEK", "RANGE"]

/-- Mean ops_per_sec over the rows of one engine and one operation. -/
def engOpMean (rows : List Row) (engine operation : String) : Option ℚ :=
  pmean ((rows.filter (fun r =>
    decide (r.engine = engine) && decide (r.operation = operation))).map
    (fun r => r.ops_per_sec))

/-- Model of the speedup list built by plot_speedup_ratios in graphgen.py
(lines 491-515): for each available operation, the pair of per-engine means
is turned into a ratio only when both means are non-NaN and the rocksdb mean
is positive, otherwise the operation contributes no entry. -/
def speedupRatios (rows : List Row) : List (String × ℚ) :=
  let engines := (rows.map (fun r => r.engine)).dedup
  if !(engines.contains "tidesdb") || !(engines.contains "rocksdb") then []
  else
    (opsOrder.filter (fun op => rows.any (fun r => decide (r.operation = op)))).filterMap
      (fun op =>
        match engOpMean rows "tidesdb" op, engOpMean rows "rocksdb" op with
        | some t, some r => if 0 < r then some (op, t / r) else none
        | some _, none => none
        | none, _ => none)

/-- Descending comparator on (test name, mean) pairs, NaN means last, as in
sort_values(ascending=False). -/
def meanDescLE (p q : String × Option ℚ) : Bool :=
  match p.2, q.2 with
  | some a, some b => decide (b ≤ a)
  | some _, none => true
  | none, some _ => false
  | none, none => true

/-- Model of top_tests in graphgen.py (lines 117-122) as a state-passing
routine: the source filters the frame with .copy(), groups by test_name,
averages ops_per_sec, sorts descending and keeps the first maxTests names.
It never assigns into the input frame, so the table component of the result
is the input table. -/
def topTestsSt (t : Table) (operation : String) (maxTests : Nat) :
    Table × List String :=
  let subset := t.rows.filter (fun r => decide (r.operation = operation))
  if subset.isEmpty then (t, [])
  else
    let byTest := groupbyMean subset (fun r => r.test_name) (fun r => r.ops_per_sec)
    (t, ((sortByB meanDescLE byTest).take maxTests).map Prod.fst)

/-! Embeddings of the plot_tidesdb_rocksdb.py routines named by the claims. -/

/-- Model of load_data in plot_tidesdb_rocksdb.py (lines 38-42): drop rows
whose test_name contains the populate tag, then drop rows whose operation is
ITER. -/
def loadData (rows : List Row) : List Row :=
  (rows.filter (fun r => !(strContainsSub r.test_name "_populate"))).filter
    (fun r => !(decide (r.operation = "ITER")))

/-- The rows selected by val in plot_tidesdb_rocksdb.py (lines 68-73). -/
def valSel (rows : List Row) (engine tn op : String) : List Row :=
  rows.filter (fun r =>
    decide (r.engine = engine) && decide (r.test_name = tn) &&
      decide (r.operation = op))

/-- Model of val in plot_tidesdb_rocksdb.py (lines 68-73): the value of the
column in the FIRST matching row (row.iloc[0]), with 0 substituted when there
is no matching row or the cell is NaN. -/
def val (rows : List Row) (engine tn op : String) (col : Row → Option ℚ) : ℚ :=
  match valSel rows engine tn op with
  | [] => 0
  | r :: _ => (col r).getD 0

/-- The standard-scale batch sweep of plot_batch_scaling in
plot_tidesdb_rocksdb.py (lines 399-404): batch sizes paired with the test
names holding their measurements. -/
def stdBatchTests : List (ℚ × String) :=
  [(1, "batch_1_10M_t8"), (10, "batch_10_10M_t8"), (100, "batch_100_10M_t8"),
    (1000, "batch_1000_10M_t8"), (10000, "batch_10000_10M_t8")]

/-- Model of the availability filter of plot_batch_scaling (lines 406-408):
a batch size is kept when either engine has a positive ops_per_sec value. -/
def batchScalingAvail (rows : List Row) : List (ℚ × String) :=
  stdBatchTests.filter (fun bn =>
    decide (0 < val rows "tidesdb" bn.2 "PUT" (fun r => r.ops_per_sec)) ||
      decide (0 < val rows "rocksdb" bn.2 "PUT" (fun r => r.ops_per_sec)))

/-- Model of one engine line of plot_batch_scaling (lines 425-427): over the
available batch sizes, the point is (batch, val), where val substitutes 0
for an engine with no matching row. -/
def batchScalingSeries (rows : List Row) (engine : String) : List (ℚ × ℚ) :=
  (batchScalingAvail rows).map
    (fun bn => (bn.1, val rows engine bn.2 "PUT" (fun r => r.ops_per_sec)))

/-! Embeddings of the visualize.py routines named by the claims. -/

/-- Mean ops_per_sec over the rows of one engine and one test name (one cell
of the pivot built by plot_summary_heatmap). -/
def testEngMean (rows : List Row) (engine tn : String) : Option ℚ :=
  pmean ((rows.filter (fun r =>
    decide (r.engine = engine) && decide (r.test_name = tn))).map
    (fun r => r.ops_per_sec))

/-- Model of the speedup series of plot_summary_heatmap in visualize.py
(lines 442-461): pivot per test name, divide the tidesdb column by the
rocksdb column under float semantics, drop the NaN entries (dropna does not
drop infinities), and sort ascending.  none models the early returns that
skip the chart. -/
def heatmapSpeedups (rows : List Row) : Option (List (String × FVal)) :=
  let tests := (rows.map (fun r => r.test_name)).dedup
  let engines := (rows.map (fun r => r.engine)).dedup
  if tests.isEmpty || !(engines.contains "tidesdb") ||
      !(engines.contains "rocksdb") then none
  else
    let raw := tests.map (fun tn =>
      (tn, fdiv (testEngMean rows "tidesdb" tn) (testEngMean rows "rocksdb" tn)))
    let dropped := raw.filter (fun p => !(decide (p.2 = FVal.nan)))
    if dropped.isEmpty then none
    else some (sortByB (fun p q => fvalLE p.2 q.2) dropped)

/-- One row of the summary table of generate_summary_table in visualize.py
(lines 558-565), with the formatted strings kept as the underlying values. -/
structure SummaryEntry where
  test : String
  tidesdbOps : Option ℚ
  rocksdbOps : Option ℚ
  speedup : Option ℚ
  tidesdbP99 : Option ℚ
  rocksdbP99 : Option ℚ
  deriving Repr, DecidableEq

/-- Access to the p99_us column of a sub-frame followed by mean: pandas
raises KeyError when the column is absent from the loaded table. -/
def colP99Mean (t : Table) (sub : List Row) : Except String (Option ℚ) :=
  if t.hasP99 then Except.ok (pmean (sub.map (fun r => r.p99_us)))
  else Except.error "KeyError: p99_us"

/-- Model of the per-test loop of generate_summary_table in visualize.py
(lines 545-565): tests with rows for only one engine are skipped; otherwise
the per-engine ops means, the guarded speedup, and the two p99_us means are
computed, the latter raising KeyError when the column is absent. -/
def summaryLoop (t : Table) : List String → Except String (List SummaryEntry)
  | [] => Except.ok []
  | test :: rest =>
    let testRows := t.rows.filter (fun r => decide (r.test_name = test))
    let td := testRows.filter (fun r => decide (r.engine = "tidesdb"))
    let rd := testRows.filter (fun r => decide (r.engine = "rocksdb"))
    if td.isEmpty || rd.isEmpty then summaryLoop t rest
    else
      let tops := pmean (td.map (fun r => r.ops_per_sec))
      let rops := pmean (rd.map (fun r => r.ops_per_sec))
      let sp : Option ℚ :=
        match rops with
        | some r => if 0 < r then tops.map (fun x => x / r) else some 0
        | none => some 0
      match colP99Mean t td, colP99Mean t rd with
      | Except.ok tp, Except.ok rp =>
        match summaryLoop t rest with
        | Except.ok es => Except.ok (⟨test, tops, rops, sp, tp, rp⟩ :: es)
        | Except.error e => Except.error e
      | Except.error e, _ => Except.error e
      | _, Except.error e => Except.error e

/-- Model of generate_summary_table in visualize.py (lines 538-580): iterate
the distinct test names and build the summary rows, propagating a KeyError
raised by an access to the absent p99_us column. -/
def generateSummaryTable (t : Table) : Except String (List SummaryEntry) :=
  summaryLoop t ((t.rows.map (fun r => r.test_name)).dedup)

/-- Boolean success test for an Except value. -/
def isOkE : Except ε α → Bool
  | Except.ok _ => true
  | Except.error _ => false

/-- Model of the exit status of main in visualize.py (lines 582-628): exit 1
with a message when the input file does not exist; otherwise the routines run
and an exception escaping one of them (generate_summary_table raising
KeyError is the fallible step modelled here; the chart routines embedded in
this file are total) terminates the interpreter with a nonzero status, else
the process ends with status 0. -/
def visualizeExit (fileExists : Bool) (t : Table) : Nat :=
  if fileExists = false then 1
  else
    match generateSummaryTable t with
    | Except.ok _ => 0
    | Except.error _ => 1

/-- Model of the state-passing form of plot_batch_size_impact in visualize.py
(lines 189-224): filter to batch tests, copy, derive the numeric batch size
from the test name on the copy, and per engine sort the rows ascending by it,
plotting raw (batch, ops_per_sec) points.  The column assignment happens on
the .copy(), so the input table is returned unchanged. -/
def plotBatchSizeImpactSt (t : Table) :
    Table × List (String × List (ℚ × Option ℚ)) :=
  let batchTests := t.rows.filter (fun r => strStartsWith r.test_name "batch_")
  if batchTests.isEmpty then (t, [])
  else
    let keyed := batchTests.map (fun r => ((batchNum r.test_name : ℚ), r))
    let series := ["tidesdb", "rocksdb"].map (fun eng =>
      (eng, sortByB qfstLE
        ((keyed.filter (fun kr => decide (kr.2.engine = eng))).map
          (fun kr => (kr.1, kr.2.ops_per_sec)))))
    (t, series)

/-! Embeddings of the visualize_extensive.py routines named by the claims. -/

/-- Model of the state-passing form of plot_threads in visualize_extensive.py
(lines 110-130): filter to thread tests with operation PUT, copy, derive the
thread count from the first digit run of the test name on the copy, and per
engine group by it, average ops_per_sec, and sort ascending.  The column
assignment happens on the .copy(), so the input table is returned
unchanged. -/
def plotThreadsSt (t : Table) :
    Table × List (String × List (ℚ × Option ℚ)) :=
  let td := t.rows.filter (fun r =>
    strStartsWith r.test_name "threads_" && decide (r.operation = "PUT"))
  if td.isEmpty then (t, [])
  else
    let series := ["tidesdb", "rocksdb"].map (fun eng =>
      let d := td.filter (fun r => decide (r.engine = eng))
      let keys := (d.map (fun r => ((firstNatIn r.test_name : ℚ)))).dedup
      (eng, sortByB qfstLE (keys.map (fun k =>
        (k, pmean ((d.filter (fun r =>
          decide ((firstNatIn r.test_name : ℚ) = k))).map
          (fun r => r.ops_per_sec)))))))
    (t, series)

/-! Embeddings of the tidesdb_rocksdb.py routines named by the claims. -/

/-- Model of the speedup list of plot_performance_heatmap in
tidesdb_rocksdb.py (lines 380-397): one entry per distinct operation; the
ratio of the per-engine means is used only when both means are non-NaN and
positive, and the entry is otherwise kept with the substitute value 1.0, then
the list is sorted ascending by value (np.argsort). -/
def perfHeatmapSpeedups (rows : List Row) : Option (List (String × ℚ)) :=
  let ops := (rows.map (fun r => r.operation)).dedup
  if ops.isEmpty then none
  else
    let sp := ops.map (fun op =>
      match engOpMean rows "tidesdb" op, engOpMean rows "rocksdb" op with
      | some t, some r => (op, if 0 < r ∧ 0 < t then t / r else 1)
      | some _, none => (op, (1 : ℚ))
      | none, _ => (op, (1 : ℚ)))
    some (sortByB (fun p q => decide (p.2 ≤ q.2)) sp)

/-- Model of the exit status of main in tidesdb_rocksdb.py (lines 660-725):
exit 1 with a message when the input file does not exist, else the pipeline
runs to completion (its generate_summary_table guards the p99_us access with
a column-presence test) and the process ends with status 0. -/
def tdbRocksExit (fileExists : Bool) : Nat :=
  if fileExists = false then 1 else 0

/-! Embeddings of the four format_ops copies (graphgen.py lines 70-75,
visualize.py lines 67-73, visualize_extensive.py lines 30-33,
tidesdb_rocksdb.py lines 92-98).  Python fixed-point formatting rounds
half-to-even; that rounding is modelled exactly on the rationals. -/

/-- Floor of a rational as an integer. -/
def qfloor (q : ℚ) : ℤ :=
  q.num.fdiv (q.den : ℤ)

/-- Round to the nearest integer, ties to the even neighbour. -/
def roundHalfEven (q : ℚ) : ℤ :=
  let f := qfloor q
  let r := q - (f : ℚ)
  if r < 1/2 then f
  else if 1/2 < r then f + 1
  else if f % 2 = 0 then f else f + 1

/-- Python format with zero decimal places. -/
def fmt0 (q : ℚ) : String :=
  toString (roundHalfEven q)

/-- Python format with one decimal place (for the non-negative inputs used
by the scripts). -/
def fmt1 (q : ℚ) : String :=
  let n := roundHalfEven (q * 10)
  toString (n / 10) ++ "." ++ toString ((n % 10).natAbs)

/-- format_ops as written in graphgen.py. -/
def formatOpsGraphgen (x : ℚ) : String :=
  if 1000000 ≤ x then fmt1 (x / 1000000) ++ "M"
  else if 1000 ≤ x then fmt0 (x / 1000) ++ "K"
  else fmt0 x

/-- format_ops as written in visualize.py. -/
def formatOpsVisualize (x : ℚ) : String :=
  if 1000000 ≤ x then fmt1 (x / 1000000) ++ "M"
  else if 1000 ≤ x then fmt0 (x / 1000) ++ "K"
  else fmt0 x

/-- format_ops as written in visualize_extensive.py. -/
def formatOpsVisualizeExt (x : ℚ) : String :=
  if 1000000 ≤ x then fmt1 (x / 1000000) ++ "M"
  else if 1000 ≤ x then fmt0 (x / 1000) ++ "K"
  else fmt0 x

/-- format_ops as written in tidesdb_rocksdb.py. -/
def formatOpsTidesdbRocksdb (x : ℚ) : String :=
  if 1000000 ≤ x then fmt1 (x / 1000000) ++ "M"
  else if 1000 ≤ x then fmt0 (x / 1000) ++ "K"
  else fmt0 x

/-! Concrete fixtures used by the counterexamples and witnesses. -/

/-- Two repeated tidesdb runs of the same test with different throughput. -/
def c1rows : List Row :=
  [⟨"tidesdb", "PUT", "t1", some 100, none, none⟩,
    ⟨"tidesdb", "PUT", "t1", some 300, none, none⟩]

/-- A test where the rocksdb mean throughput is zero. -/
def c2rows : List Row :=
  [⟨"tidesdb", "PUT", "t1", some 100, none, none⟩,
    ⟨"rocksdb", "PUT", "t1", some 0, none, none⟩]

/-- A test with present, positive means for both engines. -/
def c2posRows : List Row :=
  [⟨"tidesdb", "PUT", "t1", some 100, none, none⟩,
    ⟨"rocksdb", "PUT", "t1", some 50, none, none⟩]

/-- A table lacking the p99_us column with one test measured on both
engines. -/
def c3table : Table :=
  ⟨[⟨"tidesdb", "PUT", "t1", some 100, none, none⟩,
    ⟨"rocksdb", "PUT", "t1", some 50, none, none⟩], false⟩

/-- Sweep rows for one engine with batch sizes out of order. -/
def c4rowsA : List Row :=
  [⟨"tidesdb", "PUT", "b1000", some 10, none, some 1000⟩,
    ⟨"tidesdb", "PUT", "b1", some 20, none, some 1⟩,
    ⟨"tidesdb", "PUT", "b100", some 30, none, some 100⟩]

/-- The same rows with the first two swapped. -/
def c4rowsB : List Row :=
  [⟨"tidesdb", "PUT", "b1", some 20, none, some 1⟩,
    ⟨"tidesdb", "PUT", "b1000", some 10, none, some 1000⟩,
    ⟨"tidesdb", "PUT", "b100", some 30, none, some 100⟩]

/-- A batch-sweep measurement present for rocksdb only. -/
def c5rows : List Row :=
  [⟨"rocksdb", "PUT", "batch_1_10M_t8", some 50, none, some 1⟩]

/-- A row with a present p99_us value but a missing ops_per_sec value. -/
def c6row : Row :=
  ⟨"tidesdb", "PUT", "t1", none, some 5, none⟩

/-- A well-formed table whose p99_us column is present. -/
def c7table : Table :=
  ⟨[], true⟩

/-- A mixed fixture with one ordinary measurement, one ITER row and one
populate-phase row. -/
def c9rows : List Row :=
  [⟨"tidesdb", "PUT", "write_seq_10M", some 10, none, none⟩,
    ⟨"tidesdb", "ITER", "iter_5M", some 10, none, none⟩,
    ⟨"tidesdb", "PUT", "seq_populate", some 10, none, none⟩]

theorem pmean_map_eq_arithMean (f : Row → Option ℚ) (l : List Row) :
    pmean (l.map f) = arithMean (l.filterMap f) := by
  unfold pmean arithMean
  rw [List.filterMap_map]
  rfl

theorem pmean_perm {l l' : List (Option ℚ)} (h : List.Perm l l') :
    pmean l = pmean l' := by
  have hfm : List.Perm (l.filterMap id) (l'.filterMap id) := h.filterMap id
  simp only [pmean]
  rw [hfm.length_eq, hfm.sum_eq]

theorem pmean_none_cons (l : List (Option ℚ)) : pmean (none :: l) = pmean l := by
  unfold pmean
  rfl

theorem pmean_some_cons_ne_none (v : ℚ) (l : List (Option ℚ)) :
    pmean (some v :: l) ≠ none := by
  unfold pmean
  simp

theorem insertByB_perm (le : α → α → Bool) (a : α) (l : List α) :
    List.Perm (insertByB le a l) (a :: l) := by
  induction l with
  | nil => exact List.Perm.refl _
  | cons b bs ih =>
    simp only [insertByB]
    split
    · exact List.Perm.refl _
    · exact (ih.cons b).trans (List.Perm.swap a b bs)

theorem sortByB_perm (le : α → α → Bool) (l : List α) :
    List.Perm (sortByB le l) l := by
  induction l with
  | nil => exact List.Perm.refl _
  | cons a as ih => exact (insertByB_perm le a (sortByB le as)).trans (ih.cons a)

theorem mem_insertByB {le : α → α → Bool} {a x : α} {l : List α} :
    x ∈ insertByB le a l ↔ x = a ∨ x ∈ l := by
  rw [(insertByB_perm le a l).mem_iff]
  simp

theorem mem_sortByB {le : α → α → Bool} {x : α} {l : List α} :
    x ∈ sortByB le l ↔ x ∈ l :=
  (sortByB_perm le l).mem_iff

theorem insertByB_pairwise {le : α → α → Bool}
    (htot : ∀ a b, le a b = false → le b a = true)
    (htrans : ∀ a b c, le a b = true → le b c = true → le a c = true)
    (a : α) {l : List α} (h : l.Pairwise (fun x y => le x y = true)) :
    (insertByB le a l).Pairwise (fun x y => le x y = true) := by
  induction l with
  | nil => simp [insertByB]
  | cons b bs ih =>
    simp only [insertByB]
    split
    case isTrue hab =>
      rcases List.pairwise_cons.mp h with ⟨hbbs, _⟩
      refine List.Pairwise.cons ?_ h
      intro x hx
      rcases List.mem_cons.mp hx with rfl | hx
      · exact hab
      · exact htrans a b x hab (hbbs x hx)
    case isFalse hab =>
      have hab' : le a b = false := by
        revert hab
        cases le a b <;> simp
      have hba : le b a = true := htot a b hab'
      rcases List.pairwise_cons.mp h with ⟨hbbs, hbs⟩
      refine List.Pairwise.cons ?_ (ih hbs)
      intro x hx
      rcases mem_insertByB.mp hx with rfl | hx
      · exact hba
      · exact hbbs x hx

theorem sortByB_pairwise {le : α → α → Bool}
    (htot : ∀ a b, le a b = false → le b a = true)
    (htrans : ∀ a b c, le a b = true → le b c = true → le a c = true)
    (l : List α) :
    (sortByB le l).Pairwise (fun x y => le x y = true) := by
  induction l with
  | nil => exact List.Pairwise.nil
  | cons a as ih => exact insertByB_pairwise htot htrans a ih

theorem qfstLE_total (a b : ℚ × Option ℚ) (h : qfstLE a b = false) :
    qfstLE b a = true := by
  simp only [qfstLE, decide_eq_false_iff_not, decide_eq_true_eq] at h ⊢
  exact le_of_not_le h

theorem qfstLE_trans (a b c : ℚ × Option ℚ) (hab : qfstLE a b = true)
    (hbc : qfstLE b c = true) : qfstLE a c = true := by
  simp only [qfstLE, decide_eq_true_eq] at hab hbc ⊢
  exact le_trans hab hbc

theorem sorted_strict_of_nodup_keys (keys : List ℚ) (hnd : keys.Nodup)
    (m : ℚ → Option ℚ) :
    (sortByB qfstLE (keys.map (fun k => (k, m k)))).Pairwise
      (fun p q => p.1 < q.1) := by
  have hle := sortByB_pairwise qfstLE_total qfstLE_trans
    (keys.map (fun k => (k, m k)))
  have hperm := sortByB_perm qfstLE (keys.map (fun k => (k, m k)))
  have hmapfst : (keys.map (fun k => (k, m k))).map Prod.fst = keys := by
    rw [List.map_map]
    exact List.map_id keys
  have hnd2 : ((sortByB qfstLE (keys.map (fun k => (k, m k)))).map
      Prod.fst).Nodup := by
    have hpm := hperm.map Prod.fst
    rw [hmapfst] at hpm
    exact hpm.symm.nodup hnd
  have hne : (sortByB qfstLE (keys.map (fun k => (k, m k)))).Pairwise
      (fun p q => p.1 ≠ q.1) := List.pairwise_map.mp hnd2
  have hle' : (sortByB qfstLE (keys.map (fun k => (k, m k)))).Pairwise
      (fun p q => p.1 ≤ q.1) := hle.imp (fun h => by
        simpa [qfstLE] using h)
  exact (hle'.and hne).imp (fun h => lt_of_le_of_ne h.1 h.2)

theorem paramSweepSeries_sorted (rows : List Row) (param : Row → Option ℚ)
    (opFilter engine : String) :
    (paramSweepSeries rows param opFilter engine).Pairwise
      (fun p q => p.1 < q.1) := by
  simp only [paramSweepSeries]
  exact sorted_strict_of_nodup_keys _ (List.nodup_dedup _) _

theorem paramSweepSeries_perm_eq (rows rows2 : List Row)
    (param : Row → Option ℚ) (opFilter engine : String)
    (hperm : List.Perm rows rows2) :
    paramSweepSeries rows param opFilter engine =
      paramSweepSeries rows2 param opFilter engine := by
  have hsub := hperm.filter (fun r => decide (r.operation = opFilter))
  have heng := hsub.filter (fun r => decide (r.engine = engine))
  have hkeys := (heng.filterMap param).dedup
  have hmean : ∀ k : ℚ,
      pmean (((((rows.filter (fun r => decide (r.operation = opFilter))).filter
        (fun r => decide (r.engine = engine))).filter
          (fun r => decide (param r = some k))).map (fun r => r.ops_per_sec))) =
      pmean (((((rows2.filter (fun r => decide (r.operation = opFilter))).filter
        (fun r => decide (r.engine = engine))).filter
          (fun r => decide (param r = some k))).map (fun r => r.ops_per_sec))) :=
    fun k => pmean_perm
      ((heng.filter (fun r => decide (param r = some k))).map
        (fun r => r.ops_per_sec))
  have hpts : List.Perm
      (((((rows.filter (fun r => decide (r.operation = opFilter))).filter
        (fun r => decide (r.engine = engine))).filterMap param).dedup).map
          (fun k => (k, pmean ((((rows.filter
            (fun r => decide (r.operation = opFilter))).filter
            (fun r => decide (r.engine = engine))).filter
              (fun r => decide (param r = some k))).map
                (fun r => r.ops_per_sec)))))
      (((((rows2.filter (fun r => decide (r.operation = opFilter))).filter
        (fun r => decide (r.engine = engine))).filterMap param).dedup).map
          (fun k => (k, pmean ((((rows2.filter
            (fun r => decide (r.operation = opFilter))).filter
            (fun r => decide (r.engine = engine))).filter
              (fun r => decide (param r = some k))).map
                (fun r => r.ops_per_sec))))) := by
    refine (hkeys.map _).trans (List.Perm.of_eq ?_)
    exact List.map_congr_left (fun k _ => by rw [hmean k])
  have hall := ((sortByB_perm qfstLE _).trans hpts).trans
    (sortByB_perm qfstLE _).symm
  exact List.Perm.eq_of_sorted
    (fun a b _ _ h1 h2 => absurd (h1.trans h2) (lt_irrefl _))
    (paramSweepSeries_sorted rows param opFilter engine)
    (paramSweepSeries_sorted rows2 param opFilter engine) hall

/-! Claim theorems. -/

/-- C4: when the secondary grouping key is a numeric sweep parameter, the
points of each series produced by the sweep extraction (plot_param_sweep in
graphgen.py; the same groupby-sort pattern appears in plot_batch_size_impact
of visualize.py and plot_batch of visualize_extensive.py) are strictly
ascending in the numeric parameter value, and the series is invariant under
any permutation of the input rows. -/
theorem c4_sweep_sorted (rows rows2 : List Row) (param : Row → Option ℚ)
    (opFilter engine : String) (t : Table) (hperm : List.Perm rows rows2) :
    (paramSweepSeries rows param opFilter engine).Pairwise
      (fun p q => p.1 < q.1) ∧
    paramSweepSeries rows param opFilter engine =
      paramSweepSeries rows2 param opFilter engine ∧
    (∀ s ∈ (plotBatchSizeImpactSt t).2, s.2.Pairwise
      (fun (p : ℚ × Option ℚ) q => p.1 ≤ q.1)) := by
  refine ⟨paramSweepSeries_sorted rows param opFilter engine,
    paramSweepSeries_perm_eq rows rows2 param opFilter engine hperm, ?_⟩
  intro s hs
  simp only [plotBatchSizeImpactSt] at hs
  split at hs
  · exact absurd hs (List.not_mem_nil s)
  · rcases List.mem_map.mp hs with ⟨eng, _, rfl⟩
    exact (sortByB_pairwise qfstLE_total qfstLE_trans _).imp
      (fun h => by simpa [qfstLE] using h)

/-- C4 (witness): batch sizes arriving in the order 1000, 1, 100 produce the
series points in the order 1, 100, 1000, identically for a permuted input. -/
theorem c4_sweep_sorted_witness :
    paramSweepSeries c4rowsA (fun r => r.batch_size) "PUT" "tidesdb" =
      [(1, some 20), (100, some 30), (1000, some 10)] ∧
    paramSweepSeries c4rowsA (fun r => r.batch_size) "PUT" "tidesdb" =
      paramSweepSeries c4rowsB (fun r => r.batch_size) "PUT" "tidesdb" := by
  constructor
  · norm_num +decide [paramSweepSeries, c4rowsA, pmean, sortByB, insertByB,
      qfstLE, List.filterMap_cons, List.dedup_cons_of_not_mem, List.dedup_nil]
  · exact (c4_sweep_sorted c4rowsA c4rowsB (fun r => r.batch_size) "PUT"
      "tidesdb" c7table (by decide)).2.1

/-- C2 (counterexample): on a table where the tidesdb mean throughput of test
t1 is 100 and the rocksdb mean is 0, the speedup series of
plot_summary_heatmap in visualize.py retains the point for t1 with value
infinity — dropna removes only NaN — so a point with a zero denominator is
neither excluded nor finite. -/
theorem c2_heatmap_emits_infinity :
    heatmapSpeedups c2rows = some [("t1", FVal.inf)] := by
  have ht : testEngMean c2rows "tidesdb" "t1" = some 100 := by
    norm_num +decide [testEngMean, c2rows, pmean, List.filterMap_cons]
  have hr : testEngMean c2rows "rocksdb" "t1" = some 0 := by
    norm_num +decide [testEngMean, c2rows, pmean, List.filterMap_cons]
  have htests : ((c2rows.map (fun r => r.test_name)).dedup) = ["t1"] := by
    decide
  have hengs : ((c2rows.map (fun r => r.engine)).dedup) =
      ["tidesdb", "rocksdb"] := by decide
  simp only [heatmapSpeedups]
  rw [htests, hengs]
  simp +decide [ht, hr, fdiv, sortByB, insertByB]

/-- C2 (amended): plot_speedup_ratios in graphgen.py emits only finite ratios
with a present, positive denominator, excluding every other point; the
heatmap of visualize.py excludes exactly the NaN ratios (missing means or a
0/0 cell) but keeps an infinite ratio when only the denominator mean is
zero; and plot_performance_heatmap of tidesdb_rocksdb.py never excludes a
point, substituting the ratio 1.0 whenever either mean is missing or not
positive. -/
theorem c2_ratio_guards (rows : List Row)
    (p : String × ℚ) (hp : p ∈ speedupRatios rows)
    (l : List (String × FVal)) (hl : heatmapSpeedups rows = some l)
    (q : String × FVal) (hq : q ∈ l)
    (l2 : List (String × ℚ)) (hl2 : perfHeatmapSpeedups rows = some l2)
    (w : String × ℚ) (hw : w ∈ l2) :
    (∃ t r, engOpMean rows "tidesdb" p.1 = some t ∧
      engOpMean rows "rocksdb" p.1 = some r ∧ 0 < r ∧ p.2 = t / r) ∧
    q.2 ≠ FVal.nan ∧
    (w.2 = 1 ∨ ∃ t r, engOpMean rows "tidesdb" w.1 = some t ∧
      engOpMean rows "rocksdb" w.1 = some r ∧ 0 < r ∧ 0 < t ∧
      w.2 = t / r) := by
  refine ⟨?_, ?_, ?_⟩
  · simp only [speedupRatios] at hp
    split at hp
    · exact absurd hp (List.not_mem_nil p)
    · rcases List.mem_filterMap.mp hp with ⟨op, _, hf⟩
      cases h1 : engOpMean rows "tidesdb" op with
      | none =>
        simp only [h1] at hf
        exact Option.noConfusion hf
      | some t =>
        cases h2 : engOpMean rows "rocksdb" op with
        | none =>
          simp only [h1, h2] at hf
          exact Option.noConfusion hf
        | some r =>
          simp only [h1, h2] at hf
          split at hf
          case isTrue hpos =>
            have hpv := Option.some.inj hf
            rw [← hpv]
            exact ⟨t, r, h1, h2, hpos, rfl⟩
          case isFalse hpos => exact absurd hf (by simp)
  · simp only [heatmapSpeedups] at hl
    split at hl
    · exact absurd hl (by simp)
    · split at hl
      · exact absurd hl (by simp)
      · rw [← Option.some.inj hl] at hq
        rcases List.mem_filter.mp (mem_sortByB.mp hq) with ⟨_, hcond⟩
        simpa using hcond
  · simp only [perfHeatmapSpeedups] at hl2
    split at hl2
    · exact absurd hl2 (by simp)
    · rw [← Option.some.inj hl2] at hw
      rcases List.mem_map.mp (mem_sortByB.mp hw) with ⟨op, _, hfeq⟩
      cases h1 : engOpMean rows "tidesdb" op with
      | none =>
        simp only [h1] at hfeq
        left
        rw [← hfeq]
      | some t =>
        cases h2 : engOpMean rows "rocksdb" op with
        | none =>
          simp only [h1, h2] at hfeq
          left
          rw [← hfeq]
        | some r =>
          simp only [h1, h2] at hfeq
          by_cases hc : 0 < r ∧ 0 < t
          · right
            refine ⟨t, r, ?_, ?_, hc.1, hc.2, ?_⟩
            · rw [← hfeq]
              exact h1
            · rw [← hfeq]
              exact h2
            · rw [← hfeq]
              simp [if_pos hc]
          · left
            rw [← hfeq]
            simp [if_neg hc]

/-- C2 (witness): the amended theorem applied to a fixture with present,
positive means for both engines. -/
theorem c2_ratio_guards_witness :
    (∃ t r, engOpMean c2posRows "tidesdb" "PUT" = some t ∧
      engOpMean c2posRows "rocksdb" "PUT" = some r ∧ 0 < r ∧
      (("PUT", (2 : ℚ)) : String × ℚ).2 = t / r) ∧
    (("t1", FVal.num 2) : String × FVal).2 ≠ FVal.nan ∧
    ((("PUT", (2 : ℚ)) : String × ℚ).2 = 1 ∨
      ∃ t r, engOpMean c2posRows "tidesdb" "PUT" = some t ∧
        engOpMean c2posRows "rocksdb" "PUT" = some r ∧ 0 < r ∧ 0 < t ∧
        (("PUT", (2 : ℚ)) : String × ℚ).2 = t / r) := by
  have hms : speedupRatios c2posRows = [("PUT", 2)] := by
    norm_num +decide [speedupRatios, opsOrder, engOpMean, c2posRows, pmean,
      List.filterMap_cons, List.dedup_cons_of_not_mem, List.dedup_nil]
  have hmh : heatmapSpeedups c2posRows = some [("t1", FVal.num 2)] := by
    norm_num +decide [heatmapSpeedups, testEngMean, c2posRows, pmean, fdiv,
      sortByB, insertByB, List.filterMap_cons, List.dedup_cons_of_not_mem,
      List.dedup_nil]
  have hmp : perfHeatmapSpeedups c2posRows = some [("PUT", (2 : ℚ))] := by
    norm_num +decide [perfHeatmapSpeedups, engOpMean, c2posRows, pmean,
      sortByB, insertByB, List.filterMap_cons, List.dedup_cons_of_not_mem,
      List.dedup_nil]
  exact c2_ratio_guards c2posRows ("PUT", 2)
    (by rw [hms]; exact List.mem_singleton.mpr rfl)
    [("t1", FVal.num 2)] hmh ("t1", FVal.num 2) (List.mem_singleton.mpr rfl)
    [("PUT", 2)] hmp ("PUT", 2) (List.mem_singleton.mpr rfl)

/-- C10: the four copies of format_ops are extensionally equal on every
non-negative finite input, and each renders x/1e6 to one decimal with an M
tag when x is at least 1e6, x/1e3 to zero decimals with a K tag when x is at
least 1e3 and below 1e6, and x to zero decimals otherwise. -/
theorem c10_format_ops_equal (x : ℚ) (_h0 : 0 ≤ x) :
    (formatOpsGraphgen x = formatOpsVisualize x ∧
      formatOpsGraphgen x = formatOpsVisualizeExt x ∧
      formatOpsGraphgen x = formatOpsTidesdbRocksdb x) ∧
    (1000000 ≤ x → formatOpsGraphgen x = fmt1 (x / 1000000) ++ "M") ∧
    (1000 ≤ x → x < 1000000 → formatOpsGraphgen x = fmt0 (x / 1000) ++ "K") ∧
    (x < 1000 → formatOpsGraphgen x = fmt0 x) := by
  refine ⟨⟨rfl, rfl, rfl⟩, ?_, ?_, ?_⟩
  · intro h
    unfold formatOpsGraphgen
    rw [if_pos h]
  · intro h1 h2
    unfold formatOpsGraphgen
    rw [if_neg (not_le.mpr h2), if_pos h1]
  · intro h
    have h2 : ¬ (1000000 : ℚ) ≤ x := by
      intro hc
      linarith
    have h3 : ¬ (1000 : ℚ) ≤ x := not_le.mpr h
    unfold formatOpsGraphgen
    rw [if_neg h2, if_neg h3]

/-- C10 (witness): the theorem applied at x = 2500000. -/
theorem c10_format_ops_equal_witness :
    (0 : ℚ) ≤ 2500000 ∧
    formatOpsGraphgen 2500000 = formatOpsTidesdbRocksdb 2500000 ∧
    formatOpsGraphgen 2500000 = fmt1 ((2500000 : ℚ) / 1000000) ++ "M" :=
  ⟨by norm_num, (c10_format_ops_equal 2500000 (by norm_num)).1.2.2,
    (c10_format_ops_equal 2500000 (by norm_num)).2.1 (by norm_num)⟩

/-- C1 (counterexample): on a table holding two repeated tidesdb runs of the
same test and operation with throughputs 100 and 300, the val extractor of
plot_tidesdb_rocksdb.py produces 100, the value of the first matching row,
while the arithmetic mean of the metric over the rows matching the group is
200 — so the extraction code does not always average repeated runs. -/
theorem c1_val_not_mean :
    val c1rows "tidesdb" "t1" "PUT" (fun r => r.ops_per_sec) = 100 ∧
    arithMean (matchingVals c1rows keyTE (fun r => r.ops_per_sec)
      ("t1", "tidesdb")) = some 200 ∧
    (100 : ℚ) ≠ 200 := by
  refine ⟨by decide, ?_, by norm_num⟩
  simp +decide [arithMean, matchingVals, cellRows, keyTE, c1rows]
  norm_num

/-- C1 (amended): the groupby-based extraction sites (graphgen
plot_throughput, visualize_extensive calc_stats and the other mean
aggregations) produce, for each (primary, secondary) group, exactly the
arithmetic mean of the metric column over the rows matching that group with
repeated runs averaged; the val extractor of plot_tidesdb_rocksdb.py instead
returns the value of the first matching row (0 when there is none or the
cell is NaN), so repeated runs are not averaged there. -/
theorem c1_extractor_mean (rows : List Row) (metric : Row → Option ℚ)
    (p : (String × String) × Option ℚ)
    (hp : p ∈ groupbyMean rows keyTE metric)
    (engine tn op : String) (col : Row → Option ℚ) (r : Row) (rest : List Row)
    (hsel : valSel rows engine tn op = r :: rest) :
    p.2 = arithMean (matchingVals rows keyTE metric p.1) ∧
    val rows engine tn op col = (col r).getD 0 := by
  constructor
  · rcases List.mem_map.mp hp with ⟨k, _, rfl⟩
    simpa [matchingVals] using pmean_map_eq_arithMean metric (cellRows rows keyTE k)
  · unfold val
    rw [hsel]

/-- C1 (witness): the amended theorem applied to the 100/300 fixture. -/
theorem c1_extractor_mean_witness :
    some (200 : ℚ) = arithMean (matchingVals c1rows keyTE
      (fun r => r.ops_per_sec) ("t1", "tidesdb")) ∧
    val c1rows "tidesdb" "t1" "PUT" (fun r => r.ops_per_sec) =
      ((some (100 : ℚ)).getD 0) := by
  have hk : ("t1", "tidesdb") ∈ ((c1rows.map keyTE).dedup) := by decide
  have hval : pmean ((cellRows c1rows keyTE ("t1", "tidesdb")).map
      (fun r => r.ops_per_sec)) = some 200 := by
    simp +decide [cellRows, keyTE, c1rows, pmean]
    norm_num
  have hmem : (("t1", "tidesdb"), some (200 : ℚ)) ∈
      groupbyMean c1rows keyTE (fun r => r.ops_per_sec) := by
    unfold groupbyMean
    exact List.mem_map.mpr ⟨("t1", "tidesdb"), hk, by rw [hval]⟩
  have h := c1_extractor_mean c1rows (fun r => r.ops_per_sec)
    (("t1", "tidesdb"), some 200) hmem "tidesdb" "t1" "PUT"
    (fun r => r.ops_per_sec)
    ⟨"tidesdb", "PUT", "t1", some 100, none, none⟩
    [⟨"tidesdb", "PUT", "t1", some 300, none, none⟩] (by decide)
  exact ⟨h.1, h.2⟩

/-- C3 (code bug): on a table that lacks the p99_us column and holds a test
measured on both engines, generate_summary_table in visualize.py raises
KeyError instead of skipping the p99-dependent output, aborting the run.
The sibling generate_summary_table in tidesdb_rocksdb.py guards the same
access with a column-presence test, which marks the unguarded access as a
slip rather than intent. -/
theorem c3_summary_table_keyerror :
    generateSummaryTable c3table = Except.error "KeyError: p99_us" := by
  rfl

/-- C5 (counterexample): with a single rocksdb measurement at batch size 1
and no tidesdb row at all, the tidesdb line series of plot_batch_scaling in
plot_tidesdb_rocksdb.py contains the fabricated zero point (1, 0) for a cell
with zero contributing rows, contradicting the claim that line series never
contain such points. -/
theorem c5_line_series_zero_point :
    batchScalingSeries c5rows "tidesdb" = [(1, 0)] ∧
    c5rows.filter (fun r => decide (r.engine = "tidesdb")) = [] := by
  decide

/-- C5 (amended): groupby-based sweep series (graphgen plot_param_sweep)
contain only points backed by at least one contributing row, and grouping
cells with no row for either engine contribute no point anywhere; however,
in the val-based line plots of plot_tidesdb_rocksdb.py (plot_batch_scaling),
a batch size with data for only one engine yields a zero-valued point in the
other engine line series rather than being dropped from it. -/
theorem c5_empty_cells (rows : List Row) (param : Row → Option ℚ)
    (opFilter engine : String) (pt : ℚ × Option ℚ)
    (hpt : pt ∈ paramSweepSeries rows param opFilter engine)
    (bn : ℚ × String) (hbn : bn ∈ batchScalingAvail rows) :
    (∃ r, r ∈ rows ∧ r.operation = opFilter ∧ r.engine = engine ∧
      param r = some pt.1) ∧
    (0 < val rows "tidesdb" bn.2 "PUT" (fun r => r.ops_per_sec) ∨
      0 < val rows "rocksdb" bn.2 "PUT" (fun r => r.ops_per_sec)) := by
  constructor
  · simp only [paramSweepSeries] at hpt
    rcases List.mem_map.mp (mem_sortByB.mp hpt) with ⟨k, hk, rfl⟩
    rcases List.mem_filterMap.mp (List.mem_dedup.mp hk) with ⟨r, hr, hparam⟩
    rcases List.mem_filter.mp hr with ⟨hr2, heng⟩
    rcases List.mem_filter.mp hr2 with ⟨hr3, hop⟩
    exact ⟨r, hr3, of_decide_eq_true hop, of_decide_eq_true heng, hparam⟩
  · rcases List.mem_filter.mp hbn with ⟨_, hcond⟩
    simp only [Bool.or_eq_true, decide_eq_true_eq] at hcond
    exact hcond

/-- C5 (witness): the amended theorem applied to the single-measurement
fixture. -/
theorem c5_empty_cells_witness :
    (∃ r, r ∈ c5rows ∧ r.operation = "PUT" ∧ r.engine = "rocksdb" ∧
      r.batch_size = some (1 : ℚ)) ∧
    (0 < val c5rows "tidesdb" "batch_1_10M_t8" "PUT" (fun r => r.ops_per_sec) ∨
      0 < val c5rows "rocksdb" "batch_1_10M_t8" "PUT" (fun r => r.ops_per_sec)) := by
  have hser : paramSweepSeries c5rows (fun r => r.batch_size) "PUT" "rocksdb" =
      [(1, some 50)] := by
    norm_num +decide [paramSweepSeries, c5rows, pmean, sortByB, insertByB,
      qfstLE, List.filterMap_cons, List.dedup_cons_of_not_mem, List.dedup_nil]
  have h := c5_empty_cells c5rows (fun r => r.batch_size) "PUT" "rocksdb"
    (1, some 50) (by rw [hser]; exact List.mem_singleton.mpr rfl)
    (1, "batch_1_10M_t8") (by decide)
  exact h

/-- C6 (counterexample): a row with a present p99_us value but a missing
ops_per_sec value is removed from the graphgen table entirely by the dropna
at load (generate_graphs line 987), so it cannot contribute to any query,
including queries on the p99_us column it does have. -/
theorem c6_dropna_removes_row :
    graphgenLoad [c6row] = [] ∧ c6row.p99_us = some 5 := by
  decide

/-- C6 (amended): in graphgen, rows missing ops_per_sec (or an identity
column) are dropped from the table for all queries at load time; for the
other metric columns, exclusion is per query only: a NaN cell is skipped by
the mean of its own column while the row keeps contributing values to the
aggregations of the columns it does have (a non-NaN cell always yields a
non-NaN group mean). -/
theorem c6_per_query_exclusion (rows : List Row) (r : Row) :
    (r ∈ graphgenLoad rows ↔ (r ∈ rows ∧ r.ops_per_sec.isSome = true)) ∧
    (∀ l : List (Option ℚ), pmean (none :: l) = pmean l) ∧
    (∀ (v : ℚ) (l : List (Option ℚ)), pmean (some v :: l) ≠ none) := by
  refine ⟨?_, pmean_none_cons, pmean_some_cons_ne_none⟩
  unfold graphgenLoad
  rw [List.mem_filter]

/-- C6 (witness): the amended theorem applied to the fixture row with a
present p99_us cell and a missing ops_per_sec cell. -/
theorem c6_per_query_exclusion_witness :
    (c6row ∈ graphgenLoad [c6row] ↔
      (c6row ∈ [c6row] ∧ c6row.ops_per_sec.isSome = true)) ∧
    pmean (none :: [some (5 : ℚ)]) = pmean [some (5 : ℚ)] ∧
    pmean (some (5 : ℚ) :: []) ≠ none := by
  have h := c6_per_query_exclusion [c6row] c6row
  exact ⟨h.1, h.2.1 [some 5], h.2.2 5 []⟩

/-- C7 (counterexample): with an existing input file and a table lacking the
p99_us column but holding a test measured on both engines, the visualize.py
run terminates with a nonzero status (the KeyError of generate_summary_table
escapes), contradicting the claim that the program exits with status zero
whenever the input file exists. -/
theorem c7_visualize_nonzero_exit :
    visualizeExit true c3table = 1 := by
  rfl

/-- C7 (amended): when the input file does not exist, visualize.py and
tidesdb_rocksdb.py print a message and exit 1; when it exists,
tidesdb_rocksdb.py exits 0, and visualize.py exits 0 provided the p99_us
column is present (its generate_summary_table otherwise raises KeyError and
the run exits nonzero). -/
theorem c7_exit_codes (t : Table) :
    visualizeExit false t = 1 ∧ tdbRocksExit false = 1 ∧
    tdbRocksExit true = 0 ∧
    (t.hasP99 = true → visualizeExit true t = 0) := by
  refine ⟨rfl, rfl, rfl, ?_⟩
  intro h
  have hok : isOkE (generateSummaryTable t) = true := by
    unfold generateSummaryTable
    generalize (t.rows.map (fun r => r.test_name)).dedup = tests
    induction tests with
    | nil => rfl
    | cons test rest ih =>
      simp only [summaryLoop]
      split
      · exact ih
      · simp only [colP99Mean, h, if_true]
        cases hrec : summaryLoop t rest with
        | ok es => rfl
        | error e => rw [hrec] at ih; exact absurd ih (by simp [isOkE])
  unfold visualizeExit
  cases hg : generateSummaryTable t with
  | ok es => rfl
  | error e => rw [hg] at hok; exact absurd hok (by simp [isOkE])

/-- C7 (witness): the amended theorem applied to a table whose p99_us column
is present. -/
theorem c7_exit_codes_witness :
    c7table.hasP99 = true ∧ visualizeExit true c7table = 0 :=
  ⟨rfl, (c7_exit_codes c7table).2.2.2 rfl⟩

/-- C8: the chart routines named by the claim (top_tests in graphgen.py,
plot_batch_size_impact in visualize.py, plot_threads in
visualize_extensive.py) are read-only on the table: each one filters the
frame and performs its derived-column assignment on a .copy(), so the table
component of the state-passing embedding is returned unchanged. -/
theorem c8_routines_preserve_table (t : Table) (operation : String)
    (maxTests : Nat) :
    (topTestsSt t operation maxTests).1 = t ∧
    (plotBatchSizeImpactSt t).1 = t ∧
    (plotThreadsSt t).1 = t := by
  refine ⟨?_, ?_, ?_⟩
  · simp only [topTestsSt]
    split <;> rfl
  · simp only [plotBatchSizeImpactSt]
    split <;> rfl
  · simp only [plotThreadsSt]
    split <;> rfl

/-- C9: every row of the table returned by load_data in
plot_tidesdb_rocksdb.py has an operation different from ITER and a test name
not containing the populate tag, and comes from the input table; the main
function hands exactly this filtered table to every chart routine of the
script. -/
theorem c9_loaddata_filters (rows : List Row) (r : Row)
    (hr : r ∈ loadData rows) :
    (r.operation ≠ "ITER" ∧ strContainsSub r.test_name "_populate" = false) ∧
    r ∈ rows := by
  unfold loadData at hr
  rcases List.mem_filter.mp hr with ⟨hr2, hiter⟩
  rcases List.mem_filter.mp hr2 with ⟨hmem, hpop⟩
  refine ⟨⟨?_, ?_⟩, hmem⟩
  · intro hop
    rw [Bool.not_eq_true', decide_eq_false_iff_not] at hiter
    exact hiter hop
  · rwa [Bool.not_eq_true'] at hpop

/-- C9 (witness): the theorem applied to a mixed fixture containing an ITER
row and a populate-phase row alongside one ordinary measurement. -/
theorem c9_loaddata_filters_witness :
    ((⟨"tidesdb", "PUT", "write_seq_10M", some 10, none, none⟩ : Row).operation
        ≠ "ITER" ∧
      strContainsSub "write_seq_10M" "_populate" = false) ∧
    (⟨"tidesdb", "PUT", "write_seq_10M", some 10, none, none⟩ : Row) ∈ c9rows := by
  have h := c9_loaddata_filters c9rows
    ⟨"tidesdb", "PUT", "write_seq_10M", some 10, none, none⟩ (by decide)
  exact h

end Benchtool
